import Mathlib

/-!
Shallow embedding of the assertion-evaluation engine of `src/web/server.ts`
(the grading core of the promptfoo repository): the assertion runner
(`runAssertions`), the per-assertion evaluator (`runAssertion`), the
similarity matcher (`matchesSimilarity`), the rubric grader
(`matchesLlmRubric`) and the shorthand parser (`assertionFromString`).

JavaScript numbers are modelled as `ℚ` (thresholds, similarity values) and
token counters as `ℕ`.  Host-runtime facilities that the engine delegates to
(`JSON.parse`, `new Function`, the embedding/grading providers, the
`nunjucks` template renderer, provider resolution) are collected in a `Host`
structure of oracle functions: the engine's control flow is translated from
the source, and every theorem quantifies over the host where the claim does.
Thrown JavaScript exceptions are modelled with `Except String`.
-/

/-- Token usage counters: `{ total, prompt, completion }`, as in
`src/types.ts`'s `TokenUsage` consumed by `server.ts`. -/
structure TokenUsage where
  total : ℕ
  prompt : ℕ
  completion : ℕ
deriving DecidableEq, Repr

/-- Grading result `{ pass, reason?, tokensUsed? }`.  In the TypeScript
source `reason` is declared `string`, but the value returned from
`matchesLlmRubric`'s successful-parse branch is whatever `JSON.parse`
produced, so at runtime `reason` can be absent; it is therefore modelled as
`Option String` (`none` = the JavaScript `undefined`). -/
structure GradingResult where
  pass : Bool
  reason : Option String
  tokensUsed : Option TokenUsage := none
deriving DecidableEq, Repr

/-- Result of `callEmbeddingApi`: `{ embedding?, tokenUsage?, error? }`. -/
structure EmbeddingResult where
  embedding : Option (List ℚ) := none
  tokenUsage : Option TokenUsage := none
  error : Option String := none

/-- Result of a grading provider's `callApi`:
`{ output?, error?, tokenUsage? }`. -/
structure ProviderResponse where
  output : Option String := none
  error : Option String := none
  tokenUsage : Option TokenUsage := none

/-- JSON values, as produced by the host's `JSON.parse`. -/
inductive JsValue where
  | null : JsValue
  | bool (b : Bool) : JsValue
  | num (q : ℚ) : JsValue
  | str (s : String) : JsValue
  | arr (elems : List JsValue) : JsValue
  | obj (fields : List (String × JsValue)) : JsValue

/-- Reading a property of a parsed JSON value (`none` = `undefined`,
which is what property access yields on non-objects and missing keys). -/
def jsGetField (v : JsValue) (key : String) : Option JsValue :=
  match v with
  | .obj fields => (fields.find? (fun f => f.1 = key)).map Prod.snd
  | _ => none

/-- JavaScript truthiness of a JSON value. -/
def jsValueTruthy : JsValue → Bool
  | .null => false
  | .bool b => b
  | .num q => q ≠ 0
  | .str s => s ≠ ""
  | .arr _ => true
  | .obj _ => true

/-- Truthiness of a possibly-undefined JSON value. -/
def jsTruthy : Option JsValue → Bool
  | none => false
  | some v => jsValueTruthy v

/-- Reading a possibly-undefined JSON value as a string (`none` when the
property is absent or not a string). -/
def jsGetStr : Option JsValue → Option String
  | some (.str s) => some s
  | _ => none

/-- JavaScript truthiness of an optional string: `undefined` and `""` are
falsy, every other string is truthy. -/
def strTruthy : Option String → Bool
  | none => false
  | some s => s ≠ ""

/-- JavaScript `a || d` for an optional string `a`: yields `a`'s value when
truthy, otherwise the default `d`. -/
def jsOrStr (a : Option String) (d : String) : String :=
  match a with
  | some s => if s = "" then d else s
  | none => d

/-- String interpolation of a possibly-undefined value, as in a template
literal: `undefined` prints as "undefined". -/
def jsShowOptStr : Option String → String
  | none => "undefined"
  | some s => s

/-- Provider reference in a grading config: either a lazily-resolved string
identifier or an already-constructed provider handle (a `callApi` function). -/
inductive ProviderRef where
  | ident (s : String) : ProviderRef
  | handle (call : String → ProviderResponse) : ProviderRef

/-- Grading configuration `{ provider?, rubricPrompt? }`. -/
structure GradingConfig where
  provider : Option ProviderRef := none
  rubricPrompt : Option String := none

/-- Structured assertion `{ type, value?, threshold? }`.  `type` is a plain
string in the TypeScript source, so unknown types are representable. -/
structure Assertion where
  type : String
  value : Option String := none
  threshold : Option ℚ := none
deriving DecidableEq, Repr

/-- The fields of `AtomicTestCase` that `server.ts` reads: the ordered
assertion list (`assert?`) and the grading options (`options?`). -/
structure AtomicTestCase where
  assert : Option (List Assertion) := none
  options : Option GradingConfig := none

/-- Host-runtime facilities the engine delegates to.  `callEmbeddingApi`
models `DefaultEmbeddingProvider.callEmbeddingApi`; `defaultGradingProvider`
models `DefaultGradingProvider.callApi`; `loadApiProvider` models resolving
a provider identifier and then calling its `callApi`; `renderString` models
`nunjucks.renderString template {content, rubric}`; `jsEval` models building
`new Function ("output", "return " ++ body)` and applying it to the output,
returning the result's truthiness or the thrown error's message; `jsonParse`
models `JSON.parse`, returning the parsed value or the thrown error's
string form. -/
structure Host where
  callEmbeddingApi : String → EmbeddingResult
  defaultGradingProvider : String → ProviderResponse
  loadApiProvider : String → String → ProviderResponse
  renderString : String → String → String → String
  jsEval : String → String → Except String Bool
  jsonParse : String → Except String JsValue

/-- Modelled from the spec: `DEFAULT_GRADING_PROMPT` is the default grading
prompt template supplied by the surrounding system (`src/prompts.ts` is not
part of the sources); it is only ever passed to the host's template
renderer, so its text is otherwise irrelevant here. -/
def DEFAULT_GRADING_PROMPT : String := "DEFAULT_GRADING_PROMPT"

/-- Default threshold used when shorthand parsing captures no usable float
(`DEFAULT_SEMANTIC_SIMILARITY_THRESHOLD = 0.8`).  Rational constants are
written with `mkRat` throughout so that they evaluate by kernel reduction. -/
def DEFAULT_SEMANTIC_SIMILARITY_THRESHOLD : ℚ := mkRat 4 5

/-- Removal of leading and trailing whitespace from a character list,
modelling JavaScript's `String.prototype.trim`. -/
def trimChars (cs : List Char) : List Char :=
  ((cs.dropWhile Char.isWhitespace).reverse.dropWhile Char.isWhitespace).reverse

/-- JavaScript `s.trim()`. -/
def jsTrim (s : String) : String :=
  String.mk (trimChars s.toList)

/-- JavaScript `s.startsWith(p)`. -/
def jsStartsWith (s p : String) : Bool :=
  s.toList.take p.toList.length = p.toList

/-- JavaScript `s.slice(n)` for a non-negative index. -/
def jsSlice (s : String) (n : ℕ) : String :=
  String.mk (s.toList.drop n)

/-- Numeric value of a list of decimal digit characters. -/
def digitsToNat (ds : List Char) : ℕ :=
  ds.foldl (fun n c => 10 * n + (c.toNat - 48)) 0

/-- Value of `parseFloat` on a string matched by `\d+(\.\d+)?` — such a
string always denotes an exact decimal `ip.fr = (ip·10^|fr| + fr) / 10^|fr|`,
here represented in `ℚ`. -/
def parseDecimal (ds : List Char) : ℚ :=
  let ip := ds.takeWhile (fun c => c ≠ '.')
  match ds.dropWhile (fun c => c ≠ '.') with
  | [] => digitsToNat ip
  | _ :: fr => mkRat (digitsToNat (ip ++ fr)) ((10 : ℕ) ^ fr.length)

/-- Matching the tail of `SIMILAR_REGEX` after the literal "similar": either
":" (no capture group) or "(\d+(\.\d+)?):" (capturing the digits).  Returns
the number of matched characters and the captured group. -/
def similarTail : List Char → Option (ℕ × Option (List Char))
  | ':' :: _ => some (1, none)
  | '(' :: r =>
    let ip := r.takeWhile Char.isDigit
    if ip.isEmpty then none
    else
      match r.drop ip.length with
      | ')' :: ':' :: _ => some (ip.length + 3, some ip)
      | '.' :: r2 =>
        let fr := r2.takeWhile Char.isDigit
        if fr.isEmpty then none
        else
          match r2.drop fr.length with
          | ')' :: ':' :: _ => some (ip.length + fr.length + 4, some (ip ++ '.' :: fr))
          | _ => none
      | _ => none
  | _ => none

/-- Matching `SIMILAR_REGEX = /similar(?::|\((\d+(\.\d+)?)\):)/` at the
start of a character list: the length of the whole match and the captured
float, when the regex matches here. -/
def similarAt (cs : List Char) : Option (ℕ × Option (List Char)) :=
  if cs.take 7 = "similar".toList then
    (similarTail (cs.drop 7)).map (fun p => (7 + p.1, p.2))
  else none

/-- Leftmost match of `SIMILAR_REGEX` in a character list: start index,
match length and captured float.  The regex is unanchored, so the scan
tries every start position left to right. -/
def findSimilar : List Char → Option (ℕ × ℕ × Option (List Char))
  | [] => none
  | c :: tl =>
    match similarAt (c :: tl) with
    | some (len, g) => some (0, len, g)
    | none => (findSimilar tl).map (fun r => (r.1 + 1, r.2.1, r.2.2))

/-- Conversion of an `assertionFromString` shorthand into a structured
assertion, translated from `assertionFromString` in `server.ts`: the
`similar` regex is tried first (anywhere in the string — `SIMILAR_REGEX`
has no anchor), then the `fn:` / legacy `eval:` forms, then `grade:`, then
the exact strings `is-json` / `contains-json`, and otherwise `equals`. -/
def assertionFromString (expected : String) : Assertion :=
  match findSimilar expected.toList with
  | some (start, len, g) =>
    let threshold :=
      match g with
      | none => DEFAULT_SEMANTIC_SIMILARITY_THRESHOLD
      | some ds =>
        let v := parseDecimal ds
        if v = 0 then DEFAULT_SEMANTIC_SIMILARITY_THRESHOLD else v
    let cs := expected.toList
    let rest := jsTrim (String.mk (cs.take start ++ cs.drop (start + len)))
    { type := "similar", value := some rest, threshold := some threshold }
  | none =>
    if jsStartsWith expected "fn:" then
      { type := "javascript", value := some (jsSlice expected 3) }
    else if jsStartsWith expected "eval:" then
      { type := "javascript", value := some (jsSlice expected 5) }
    else if jsStartsWith expected "grade:" then
      { type := "llm-rubric", value := some (jsSlice expected 6) }
    else if expected = "is-json" ∨ expected = "contains-json" then
      { type := expected }
    else
      { type := "equals", value := some expected }

/-- Decimal digit characters of a natural number, with explicit fuel (the
number itself bounds the recursion depth). -/
def natDigits : ℕ → ℕ → List Char
  | 0, _ => []
  | fuel + 1, n =>
    if n < 10 then [Char.ofNat (48 + n)]
    else natDigits fuel (n / 10) ++ [Char.ofNat (48 + n % 10)]

/-- Decimal string of a natural number. -/
def natToString (n : ℕ) : String :=
  if n = 0 then "0" else String.mk (natDigits n n)

deriving instance DecidableEq for Except

/-- Decimal string of an integer. -/
def intToString : ℤ → String
  | .ofNat n => natToString n
  | .negSucc n => "-" ++ natToString (n + 1)

/-- Printing of a rational number, modelling the template-literal
interpolation of a JavaScript number into a reason string.  The exact digit
format differs from JavaScript float printing; the claims only require that
the numeric similarity and threshold appear in the reason. -/
def ratToString (q : ℚ) : String :=
  if q.den = 1 then intToString q.num
  else intToString q.num ++ "/" ++ natToString q.den

/-- Sum of two rationals, written out on numerators and denominators
(`Rat.add` is irreducible and would block evaluation). -/
def qAdd (a b : ℚ) : ℚ :=
  mkRat (a.num * (b.den : ℤ) + b.num * (a.den : ℤ)) (a.den * b.den)

/-- Product of two rationals, written out on numerators and denominators. -/
def qMul (a b : ℚ) : ℚ :=
  mkRat (a.num * b.num) (a.den * b.den)

/-- Quotient of two rationals (0 when the divisor is 0), written out on
numerators and denominators. -/
def qDiv (a b : ℚ) : ℚ :=
  if b.num < 0 then mkRat (-(a.num * (b.den : ℤ))) (a.den * b.num.natAbs)
  else mkRat (a.num * (b.den : ℤ)) (a.den * b.num.natAbs)

/-- Dot product of two embedding vectors (extra components of the longer
vector are ignored). -/
def dotQ : List ℚ → List ℚ → ℚ
  | x :: xs, y :: ys => qAdd (qMul x y) (dotQ xs ys)
  | _, _ => 0

/-- Exact rational square root: the rational `r ≥ 0` with `r * r = q` when
one exists, and 0 otherwise. -/
def ratSqrt (q : ℚ) : ℚ :=
  if q.num < 0 then 0
  else
    let ns := Nat.sqrt q.num.natAbs
    let ds := Nat.sqrt q.den
    if ns * ns = q.num.natAbs ∧ ds * ds = q.den then mkRat (ns : ℤ) ds else 0

/-- Modelled from the spec: `cosineSimilarity` lives in `src/util.ts`,
which is not among the sources; the spec defines it as the dot product
divided by the product of the vector magnitudes.  Magnitudes are irrational
in general, so `ratSqrt` keeps the model inside `ℚ`: it is exact whenever
the magnitudes are rational (true for every vector used concretely in this
file), and the degenerate zero-magnitude case yields 0 via `qDiv`. -/
def cosineSimilarity (a b : List ℚ) : ℚ :=
  qDiv (dotQ a b) (qMul (ratSqrt (dotQ a a)) (ratSqrt (dotQ b b)))

/-- Field-wise read of an optional token-usage record, modelling
`x.tokenUsage?.total || 0` and friends. -/
def tuTotal (t : Option TokenUsage) : ℕ := (t.map TokenUsage.total).getD 0

/-- Field-wise read of the prompt-token counter. -/
def tuPrompt (t : Option TokenUsage) : ℕ := (t.map TokenUsage.prompt).getD 0

/-- Field-wise read of the completion-token counter. -/
def tuCompletion (t : Option TokenUsage) : ℕ := (t.map TokenUsage.completion).getD 0

/-- Similarity matcher, translated from `matchesSimilarity` in `server.ts`:
embed both strings, sum the two calls' token usage field-wise, fail with the
first truthy error (expected side first) or with "Embedding not found" when
an embedding is absent, and otherwise compare cosine similarity against the
threshold — failing strictly below it. -/
def matchesSimilarity (host : Host) (expected output : String) (threshold : ℚ) :
    GradingResult :=
  let expectedEmbedding := host.callEmbeddingApi expected
  let outputEmbedding := host.callEmbeddingApi output
  let tokensUsed : TokenUsage :=
    { total := tuTotal expectedEmbedding.tokenUsage + tuTotal outputEmbedding.tokenUsage
      prompt := tuPrompt expectedEmbedding.tokenUsage + tuPrompt outputEmbedding.tokenUsage
      completion :=
        tuCompletion expectedEmbedding.tokenUsage + tuCompletion outputEmbedding.tokenUsage }
  if strTruthy expectedEmbedding.error || strTruthy outputEmbedding.error then
    { pass := false
      reason := some (jsOrStr expectedEmbedding.error
        (jsOrStr outputEmbedding.error "Unknown error fetching embeddings"))
      tokensUsed := some tokensUsed }
  else
    match expectedEmbedding.embedding, outputEmbedding.embedding with
    | some e, some o =>
      let similarity := cosineSimilarity e o
      if similarity < threshold then
        { pass := false
          reason := some ("Similarity " ++ ratToString similarity ++
            " is less than threshold " ++ ratToString threshold)
          tokensUsed := some tokensUsed }
      else
        { pass := true
          reason := some ("Similarity " ++ ratToString similarity ++
            " is greater than threshold " ++ ratToString threshold)
          tokensUsed := some tokensUsed }
    | _, _ =>
      { pass := false, reason := some "Embedding not found", tokensUsed := some tokensUsed }

/-- Provider resolution in `matchesLlmRubric`: `options.provider ||
DefaultGradingProvider`, then `loadApiProvider` when the reference is a
(truthy) string identifier. -/
def resolveProvider (host : Host) (opts : GradingConfig) : String → ProviderResponse :=
  match opts.provider with
  | none => host.defaultGradingProvider
  | some (.ident s) => if s = "" then host.defaultGradingProvider else host.loadApiProvider s
  | some (.handle call) => call

/-- Judge-provider response obtained inside `matchesLlmRubric`: the rubric
prompt is rendered from `options.rubricPrompt || DEFAULT_GRADING_PROMPT`
with the candidate output and the rubric text, and the resolved provider is
called on it. -/
def rubricResponse (host : Host) (expected output : String) (opts : GradingConfig) :
    ProviderResponse :=
  resolveProvider host opts
    (host.renderString (jsOrStr opts.rubricPrompt DEFAULT_GRADING_PROMPT) output expected)

/-- Token usage attached by `matchesLlmRubric` to each of its results:
`resp.tokenUsage?.total || 0` and friends. -/
def respTokens (resp : ProviderResponse) : TokenUsage :=
  { total := tuTotal resp.tokenUsage
    prompt := tuPrompt resp.tokenUsage
    completion := tuCompletion resp.tokenUsage }

/-- Rubric grader, translated from `matchesLlmRubric` in `server.ts`.
Missing options throw; a provider error or missing output is a graded
failure carrying the call's token usage; otherwise the judge's output is
parsed as JSON — on parse failure a graded failure embeds the raw output,
and on success the parsed object is returned with only its `tokensUsed`
overwritten (the TypeScript cast `as GradingResult` validates nothing, so
`pass` is read with JavaScript truthiness and `reason` is absent unless the
judge emitted a string `reason`). -/
def matchesLlmRubric (host : Host) (expected output : String)
    (options : Option GradingConfig) : Except String GradingResult :=
  match options with
  | none =>
    .error "Cannot grade output without grading config. Specify --grader option or grading config."
  | some opts =>
    let resp := rubricResponse host expected output opts
    if strTruthy resp.error || !strTruthy resp.output then
      .ok { pass := false
            reason := some (jsOrStr resp.error "No output")
            tokensUsed := some (respTokens resp) }
    else
      match host.jsonParse (resp.output.getD "") with
      | .ok v =>
        .ok { pass := jsTruthy (jsGetField v "pass")
              reason := jsGetStr (jsGetField v "reason")
              tokensUsed := some (respTokens resp) }
      | .error _ =>
        .ok { pass := false
              reason := some ("Output is not valid JSON: " ++ resp.output.getD "")
              tokensUsed := some (respTokens resp) }

/-- Index of the last occurrence of a character in a list. -/
def lastIdx (c : Char) : List Char → Option ℕ
  | [] => none
  | x :: xs =>
    match lastIdx c xs with
    | some k => some (k + 1)
    | none => if x = c then some 0 else none

/-- Leftmost match of the JSON-shaped pattern `({[\s\S]*}|\[[\s\S]*])`: at
each start position the brace alternative is tried first; a greedy
alternative matches from an opening bracket to the last matching closing
bracket anywhere later in the string. -/
def jsonCandidate : List Char → Option (List Char)
  | [] => none
  | x :: xs =>
    if x = '{' then
      match lastIdx '}' xs with
      | some k => some (x :: xs.take (k + 1))
      | none => jsonCandidate xs
    else if x = '[' then
      match lastIdx ']' xs with
      | some k => some (x :: xs.take (k + 1))
      | none => jsonCandidate xs
    else jsonCandidate xs

/-- Detection of embedded JSON, translated from `containsJSON` in
`server.ts`: the regex-matched bracket-shaped substring, when present, must
parse as JSON. -/
def containsJSON (host : Host) (str : String) : Bool :=
  match jsonCandidate str.toList with
  | none => false
  | some sub => (host.jsonParse (String.mk sub)).toBool

/-- Effective threshold of a `similar` assertion inside `runAssertion`:
`assertion.threshold || 0.75`, so an absent and a zero threshold both fall
back to 0.75. -/
def effectiveThreshold (t : Option ℚ) : ℚ :=
  match t with
  | some v => if v = 0 then mkRat 3 4 else v
  | none => mkRat 3 4

/-- Per-assertion evaluator, translated from `runAssertion` in `server.ts`:
a dispatch on `assertion.type` over the six known kinds, throwing (via
`Except.error`) on a falsy `similar`/`llm-rubric` value (`tiny-invariant`)
and on an unknown type. -/
def runAssertion (host : Host) (assertion : Assertion) (test : AtomicTestCase)
    (output : String) : Except String GradingResult :=
  if assertion.type = "equals" then
    let pass := assertion.value = some output
    .ok { pass := pass
          reason := some (if pass then "Assertion passed"
            else "Expected output \"" ++ jsShowOptStr assertion.value ++ "\"") }
  else if assertion.type = "is-json" then
    match host.jsonParse output with
    | .ok _ => .ok { pass := true, reason := some "Assertion passed" }
    | .error err =>
      .ok { pass := false
            reason := some ("Expected output to be valid JSON, but it isn't.\nError: " ++ err) }
  else if assertion.type = "contains-json" then
    let pass := containsJSON host output
    .ok { pass := pass
          reason := some (if pass then "Assertion passed"
            else "Expected output to contain valid JSON") }
  else if assertion.type = "javascript" then
    match host.jsEval (jsShowOptStr assertion.value) output with
    | .error err =>
      .ok { pass := false, reason := some ("Custom function threw error: " ++ err) }
    | .ok pass =>
      .ok { pass := pass
            reason := some (if pass then "Assertion passed" else "Custom function returned false") }
  else if assertion.type = "similar" then
    if strTruthy assertion.value then
      .ok (matchesSimilarity host (assertion.value.getD "") output
        (effectiveThreshold assertion.threshold))
    else .error "Invariant failed: Similarity assertion must have a string value"
  else if assertion.type = "llm-rubric" then
    if strTruthy assertion.value then
      matchesLlmRubric host (assertion.value.getD "") output test.options
    else .error "Invariant failed: Similarity assertion must have a string value"
  else .error ("Unknown assertion type: " ++ assertion.type)

/-- Field-wise accumulation of a result's token usage into the running
total (`if (result.tokensUsed) { ... += ... }`). -/
def accTokens (acc : TokenUsage) (t : Option TokenUsage) : TokenUsage :=
  match t with
  | none => acc
  | some tu =>
    { total := acc.total + tu.total
      prompt := acc.prompt + tu.prompt
      completion := acc.completion + tu.completion }

/-- Loop body of `runAssertions`: evaluate assertions in order, return the
first non-passing result unchanged, accumulate token usage of passing
results, and report "All assertions passed" at the end of the list. -/
def runAssertionsGo (eval : Assertion → Except String GradingResult) :
    List Assertion → TokenUsage → Except String GradingResult
  | [], acc =>
    .ok { pass := true, reason := some "All assertions passed", tokensUsed := some acc }
  | a :: rest, acc =>
    match eval a with
    | .error e => .error e
    | .ok result =>
      if !result.pass then .ok result
      else runAssertionsGo eval rest (accTokens acc result.tokensUsed)

/-- Assertion runner, translated from `runAssertions` in `server.ts`.  The
guard is JavaScript falsiness of `test.assert`: only an absent list
returns "No assertions"; a present-but-empty array is truthy and reaches the
loop. -/
def runAssertions (host : Host) (test : AtomicTestCase) (output : String) :
    Except String GradingResult :=
  match test.assert with
  | none =>
    .ok { pass := true, reason := some "No assertions", tokensUsed := some ⟨0, 0, 0⟩ }
  | some l => runAssertionsGo (fun a => runAssertion host a test output) l ⟨0, 0, 0⟩

example : assertionFromString "similar(0.9): foo" =
    { type := "similar", value := some "foo", threshold := some (mkRat 9 10) } := by decide
example : assertionFromString "fn: x.length > 0" =
    { type := "javascript", value := some " x.length > 0" } := by decide
example : assertionFromString "grade: be concise" =
    { type := "llm-rubric", value := some " be concise" } := by decide
example : assertionFromString "is-json" = { type := "is-json" } := by decide
example : assertionFromString "hello" =
    { type := "equals", value := some "hello" } := by decide
example : assertionFromString "not similar: x" =
    { type := "similar", value := some "not  x", threshold := some (mkRat 4 5) } := by decide
example : assertionFromString "similar(0): x" =
    { type := "similar", value := some "x", threshold := some (mkRat 4 5) } := by decide

/-- Inert host used to instantiate theorems whose conclusion does not
depend on the host's behavior. -/
def trivHost : Host where
  callEmbeddingApi _ := {}
  defaultGradingProvider _ := {}
  loadApiProvider _ _ := {}
  renderString t _ _ := t
  jsEval _ _ := .ok false
  jsonParse _ := .error "SyntaxError: Unexpected token"

/-- Host whose embedding provider knows the strings "a" and "b", mapping
them to the orthogonal unit vectors `[1, 0]` and `[0, 1]` with one prompt
token of usage per call; on unit vectors the spec's cosine formula is the
plain dot product, so `cosineSimilarity` is exact here. -/
def embHost : Host where
  callEmbeddingApi s :=
    if s = "a" then { embedding := some [1, 0], tokenUsage := some ⟨1, 1, 0⟩ }
    else if s = "b" then { embedding := some [0, 1], tokenUsage := some ⟨1, 1, 0⟩ }
    else { error := some ("No embedding for " ++ s) }
  defaultGradingProvider _ := {}
  loadApiProvider _ _ := {}
  renderString t _ _ := t
  jsEval _ _ := .ok false
  jsonParse _ := .error "SyntaxError: Unexpected token"

/-- Host whose embedding provider reports an API error on the string "e"
(with token usage still recorded), whose grading provider reports a network
error, and which otherwise behaves like `embHost`. -/
def errHost : Host where
  callEmbeddingApi s :=
    if s = "e" then { error := some "API error: rate limited", tokenUsage := some ⟨3, 3, 0⟩ }
    else if s = "a" then { embedding := some [1, 0], tokenUsage := some ⟨1, 1, 0⟩ }
    else { embedding := some [0, 1], tokenUsage := some ⟨1, 1, 0⟩ }
  defaultGradingProvider _ := { error := some "API call error: connect ECONNREFUSED" }
  loadApiProvider _ _ := {}
  renderString t _ _ := t
  jsEval _ _ := .ok false
  jsonParse _ := .error "SyntaxError: Unexpected token"

/-- Judge output used to exercise `matchesLlmRubric`'s successful-parse
branch: a JSON object with a `pass` field and no `reason` field. -/
def judgeOutput : String := "\x7b\"pass\":true\x7d"

/-- Host whose grading provider answers every prompt with `judgeOutput`,
and whose `JSON.parse` parses exactly that string (to an object with only a
`pass` field), modelling the real `JSON.parse` at that input. -/
def rubricHost : Host where
  callEmbeddingApi _ := {}
  defaultGradingProvider _ :=
    { output := some judgeOutput, tokenUsage := some ⟨7, 5, 2⟩ }
  loadApiProvider _ _ := {}
  renderString t _ _ := t
  jsEval _ _ := .ok false
  jsonParse s :=
    if s = judgeOutput then .ok (.obj [("pass", .bool true)])
    else .error "SyntaxError: Unexpected token"

example : matchesSimilarity embHost "a" "a" (mkRat 3 4) =
    { pass := true, reason := some "Similarity 1 is greater than threshold 3/4",
      tokensUsed := some ⟨2, 2, 0⟩ } := by decide
example : matchesSimilarity embHost "a" "b" (mkRat 3 4) =
    { pass := false, reason := some "Similarity 0 is less than threshold 3/4",
      tokensUsed := some ⟨2, 2, 0⟩ } := by decide
example : matchesSimilarity errHost "e" "a" (mkRat 3 4) =
    { pass := false, reason := some "API error: rate limited",
      tokensUsed := some ⟨4, 4, 0⟩ } := by decide
example : matchesLlmRubric rubricHost "rubric" "out" (some {}) =
    .ok { pass := true, reason := none, tokensUsed := some ⟨7, 5, 2⟩ } := by decide
example : runAssertions trivHost { assert := some [] } "x" =
    .ok { pass := true, reason := some "All assertions passed",
          tokensUsed := some ⟨0, 0, 0⟩ } := by decide
example : runAssertions trivHost {} "x" =
    .ok { pass := true, reason := some "No assertions",
          tokensUsed := some ⟨0, 0, 0⟩ } := by decide
example : runAssertions embHost
    { assert := some [{ type := "similar", value := some "a" },
                      { type := "equals", value := some "zzz" }] } "a" =
    .ok { pass := false, reason := some "Expected output \"zzz\"" } := by decide

/-- Test case with a passing token-consuming `similar` assertion followed
by a failing `equals` assertion, evaluated against output "a" under
`embHost`. -/
def tokenDropTest : AtomicTestCase :=
  { assert := some [{ type := "similar", value := some "a" },
                    { type := "equals", value := some "zzz" }] }

/-- Evaluation of `runAssertion` depends on the test case only through its
`options` field. -/
theorem runAssertion_congr_options (host : Host) (a : Assertion) (output : String)
    {t1 t2 : AtomicTestCase} (h : t1.options = t2.options) :
    runAssertion host a t1 output = runAssertion host a t2 output := by
  simp only [runAssertion, h]

/-- Evaluation of the assertion loop on a list whose first non-passing
assertion is `a` returns `a`'s result, for any starting accumulator. -/
theorem runAssertionsGo_first_fail (eval : Assertion → Except String GradingResult)
    (pre : List Assertion) (a : Assertion) (post : List Assertion) (r : GradingResult)
    (hpre : ∀ p ∈ pre, ∃ rp, eval p = .ok rp ∧ rp.pass = true)
    (ha : eval a = .ok r) (hfail : r.pass = false) :
    ∀ acc, runAssertionsGo eval (pre ++ a :: post) acc = .ok r := by
  induction pre with
  | nil => intro acc; simp [runAssertionsGo, ha, hfail]
  | cons p ps ih =>
    intro acc
    obtain ⟨rp, hp, hpass⟩ := hpre p (by simp)
    simp only [List.cons_append, runAssertionsGo, hp, hpass]
    exact ih (fun q hq => hpre q (by simp [hq])) _

/-- Evaluation of the assertion loop on a list of all-passing assertions
ends the loop and folds their token usage into the accumulator. -/
theorem runAssertionsGo_all_pass (eval : Assertion → Except String GradingResult)
    {l : List Assertion} {rs : List GradingResult}
    (h : List.Forall₂ (fun a r => eval a = .ok r ∧ r.pass = true) l rs) :
    ∀ acc, runAssertionsGo eval l acc =
      .ok { pass := true, reason := some "All assertions passed",
            tokensUsed := some (rs.foldl (fun t r => accTokens t r.tokensUsed) acc) } := by
  induction h with
  | nil => intro acc; simp [runAssertionsGo]
  | cons hpair _ ih =>
    intro acc
    obtain ⟨heval, hpass⟩ := hpair
    simp only [runAssertionsGo, heval, hpass, List.foldl]
    exact ih _

/-- C1: for every test case and output, `runAssertions` evaluates the
assertions in list order and, on the first assertion whose result has
`pass = false`, returns that assertion's `GradingResult` unchanged and
evaluates no assertion after it (replacing everything after the failing
assertion cannot change the outcome). -/
theorem runAssertions_first_failure (host : Host) (test : AtomicTestCase)
    (output : String) (pre : List Assertion) (a : Assertion) (post : List Assertion)
    (r : GradingResult)
    (hassert : test.assert = some (pre ++ a :: post))
    (hpre : ∀ p ∈ pre, ∃ rp, runAssertion host p test output = .ok rp ∧ rp.pass = true)
    (ha : runAssertion host a test output = .ok r) (hfail : r.pass = false) :
    runAssertions host test output = .ok r ∧
    ∀ post' : List Assertion,
      runAssertions host { test with assert := some (pre ++ a :: post') } output = .ok r := by
  have hcongr : ∀ (post' : List Assertion) (q : Assertion),
      runAssertion host q { test with assert := some (pre ++ a :: post') } output =
        runAssertion host q test output :=
    fun post' q => runAssertion_congr_options host q output rfl
  refine ⟨?_, fun post' => ?_⟩
  · rw [runAssertions, hassert]
    exact runAssertionsGo_first_fail _ pre a post r hpre ha hfail _
  · rw [runAssertions]
    simp only [hcongr post']
    exact runAssertionsGo_first_fail _ pre a post' r hpre ha hfail _

theorem runAssertions_first_failure_witness :
    runAssertions trivHost
      { assert := some [{ type := "equals", value := some "a" },
                        { type := "equals", value := some "b" },
                        { type := "equals", value := some "c" }] } "a" =
      .ok { pass := false, reason := some "Expected output \"b\"" } := by
  have h := runAssertions_first_failure trivHost
    { assert := some [{ type := "equals", value := some "a" },
                      { type := "equals", value := some "b" },
                      { type := "equals", value := some "c" }] } "a"
    [{ type := "equals", value := some "a" }] { type := "equals", value := some "b" }
    [{ type := "equals", value := some "c" }]
    { pass := false, reason := some "Expected output \"b\"" }
    rfl
    (by
      intro p hp
      simp only [List.mem_singleton] at hp
      subst hp
      exact ⟨{ pass := true, reason := some "Assertion passed" }, by decide, rfl⟩)
    (by decide) rfl
  exact h.1

/-- C2 counterexample: under `embHost`, a passing `similar` assertion
consumes token usage `⟨2, 2, 0⟩`, but when the following `equals` assertion
fails, `runAssertions` returns the failing result unchanged — its
`tokensUsed` is absent rather than the field-wise sum `⟨2, 2, 0⟩` of the
evaluated assertions' usage. -/
theorem runAssertions_token_sum_counterexample :
    runAssertion embHost { type := "similar", value := some "a" } tokenDropTest "a" =
      .ok { pass := true, reason := some "Similarity 1 is greater than threshold 3/4",
            tokensUsed := some ⟨2, 2, 0⟩ } ∧
    runAssertion embHost { type := "equals", value := some "zzz" } tokenDropTest "a" =
      .ok { pass := false, reason := some "Expected output \"zzz\"", tokensUsed := none } ∧
    runAssertions embHost tokenDropTest "a" =
      .ok { pass := false, reason := some "Expected output \"zzz\"", tokensUsed := none } ∧
    (none : Option TokenUsage) ≠ some ⟨2, 2, 0⟩ := by
  refine ⟨by decide, by decide, by decide, by decide⟩

/-- C2 as amended: when every assertion passes, `runAssertions` returns the
field-wise sum of the evaluated assertions' token usage (absent `tokensUsed`
contributing zero); but when an assertion fails, the failing result is
returned unchanged, so the returned `tokensUsed` is the failing assertion's
own and the usage of earlier passing assertions is dropped. -/
theorem runAssertions_token_accounting :
    (∀ (host : Host) (test : AtomicTestCase) (output : String)
       (l : List Assertion) (rs : List GradingResult),
      test.assert = some l →
      List.Forall₂ (fun a r => runAssertion host a test output = .ok r ∧ r.pass = true) l rs →
      runAssertions host test output =
        .ok { pass := true, reason := some "All assertions passed",
              tokensUsed := some (rs.foldl (fun t r => accTokens t r.tokensUsed) ⟨0, 0, 0⟩) }) ∧
    (∀ (host : Host) (test : AtomicTestCase) (output : String)
       (pre : List Assertion) (a : Assertion) (post : List Assertion) (r : GradingResult),
      test.assert = some (pre ++ a :: post) →
      (∀ p ∈ pre, ∃ rp, runAssertion host p test output = .ok rp ∧ rp.pass = true) →
      runAssertion host a test output = .ok r → r.pass = false →
      ∃ res, runAssertions host test output = .ok res ∧ res.tokensUsed = r.tokensUsed) := by
  constructor
  · intro host test output l rs hassert hall
    rw [runAssertions, hassert]
    exact runAssertionsGo_all_pass _ hall _
  · intro host test output pre a post r hassert hpre ha hfail
    refine ⟨r, ?_, rfl⟩
    rw [runAssertions, hassert]
    exact runAssertionsGo_first_fail _ pre a post r hpre ha hfail _

theorem runAssertions_token_accounting_witness :
    runAssertions embHost
      { assert := some [{ type := "similar", value := some "a" },
                        { type := "similar", value := some "a" }] } "a" =
      .ok { pass := true, reason := some "All assertions passed",
            tokensUsed := some ⟨4, 4, 0⟩ } ∧
    (∃ res, runAssertions embHost tokenDropTest "a" = .ok res ∧ res.tokensUsed = none) := by
  constructor
  · have h := runAssertions_token_accounting.1 embHost
      { assert := some [{ type := "similar", value := some "a" },
                        { type := "similar", value := some "a" }] } "a"
      [{ type := "similar", value := some "a" }, { type := "similar", value := some "a" }]
      [{ pass := true, reason := some "Similarity 1 is greater than threshold 3/4",
         tokensUsed := some ⟨2, 2, 0⟩ },
       { pass := true, reason := some "Similarity 1 is greater than threshold 3/4",
         tokensUsed := some ⟨2, 2, 0⟩ }]
      rfl (by refine .cons ⟨by decide, rfl⟩ (.cons ⟨by decide, rfl⟩ .nil))
    simpa using h
  · have h := runAssertions_token_accounting.2 embHost tokenDropTest "a"
      [{ type := "similar", value := some "a" }] { type := "equals", value := some "zzz" } []
      { pass := false, reason := some "Expected output \"zzz\"", tokensUsed := none }
      rfl
      (by
        intro p hp
        simp only [List.mem_singleton] at hp
        subst hp
        exact ⟨{ pass := true, reason := some "Similarity 1 is greater than threshold 3/4",
                 tokensUsed := some ⟨2, 2, 0⟩ }, by decide, rfl⟩)
      (by decide) rfl
    obtain ⟨res, hres, htok⟩ := h
    exact ⟨res, hres, htok⟩

/-- C3 counterexample: a test case whose assertion list is present but
empty reaches the loop (an empty array is truthy in JavaScript), so the
reason is "All assertions passed", not "No assertions" as claimed. -/
theorem runAssertions_empty_list_counterexample :
    runAssertions trivHost { assert := some [] } "x" =
      .ok { pass := true, reason := some "All assertions passed",
            tokensUsed := some ⟨0, 0, 0⟩ } ∧
    some "All assertions passed" ≠ some "No assertions" := by
  exact ⟨by decide, by decide⟩

/-- C3 as amended: when the assertion list is absent, `runAssertions`
returns an immediate pass with reason "No assertions" and zero token usage;
when the list is present but empty it also passes with zero token usage and
no error, but with reason "All assertions passed". -/
theorem runAssertions_no_assertions (host : Host) (output : String)
    (opts : Option GradingConfig) :
    runAssertions host { assert := none, options := opts } output =
      .ok { pass := true, reason := some "No assertions", tokensUsed := some ⟨0, 0, 0⟩ } ∧
    runAssertions host { assert := some [], options := opts } output =
      .ok { pass := true, reason := some "All assertions passed",
            tokensUsed := some ⟨0, 0, 0⟩ } := by
  exact ⟨rfl, rfl⟩

/-- The six assertion kinds `runAssertion` recognizes. -/
def knownAssertionTypes : List String :=
  ["equals", "is-json", "contains-json", "javascript", "similar", "llm-rubric"]

/-- Configuration-error condition of `runAssertion`: an unknown assertion
type, a falsy `value` on a `similar` or `llm-rubric` assertion, or an
`llm-rubric` assertion graded without grading options. -/
def fatalConfigError (a : Assertion) (test : AtomicTestCase) : Bool :=
  !(knownAssertionTypes.contains a.type) ||
  ((a.type == "similar" || a.type == "llm-rubric") && !strTruthy a.value) ||
  (a.type == "llm-rubric" && strTruthy a.value && test.options.isNone)

/-- Evaluation of `matchesLlmRubric` with a grading config present always
returns a graded result and never throws. -/
theorem matchesLlmRubric_some_ok (host : Host) (e o : String) (opts : GradingConfig) :
    ∃ r, matchesLlmRubric host e o (some opts) = .ok r := by
  simp only [matchesLlmRubric]
  split
  · exact ⟨_, rfl⟩
  · split
    · exact ⟨_, rfl⟩
    · exact ⟨_, rfl⟩

/-- C4: `runAssertion` raises an exception exactly on configuration errors
(unknown type, falsy `similar`/`llm-rubric` value, rubric grading without
options), while provider-reported errors never raise: a truthy
embedding-provider error makes `matchesSimilarity` return a graded failure,
and a truthy grading-provider error makes `matchesLlmRubric` return a
graded failure. -/
theorem runAssertion_raises_iff :
    (∀ (host : Host) (a : Assertion) (test : AtomicTestCase) (output : String),
      (∃ e, runAssertion host a test output = .error e) ↔ fatalConfigError a test = true) ∧
    (∀ (host : Host) (e o : String) (t : ℚ),
      strTruthy (host.callEmbeddingApi e).error = true →
      (matchesSimilarity host e o t).pass = false) ∧
    (∀ (host : Host) (e o : String) (opts : GradingConfig),
      strTruthy (rubricResponse host e o opts).error = true →
      ∃ r, matchesLlmRubric host e o (some opts) = .ok r ∧ r.pass = false) := by
  refine ⟨?_, ?_, ?_⟩
  · intro host a test output
    by_cases h1 : a.type = "equals"
    · simp [runAssertion, fatalConfigError, knownAssertionTypes, h1]
    · by_cases h2 : a.type = "is-json"
      · rcases hp : host.jsonParse output with v | err <;>
          simp [runAssertion, fatalConfigError, knownAssertionTypes, h1, h2, hp]
      · by_cases h3 : a.type = "contains-json"
        · simp [runAssertion, fatalConfigError, knownAssertionTypes, h1, h2, h3]
        · by_cases h4 : a.type = "javascript"
          · rcases hp : host.jsEval (jsShowOptStr a.value) output with err | b <;>
              simp [runAssertion, fatalConfigError, knownAssertionTypes, h1, h2, h3, h4, hp]
          · by_cases h5 : a.type = "similar"
            · rcases hv : strTruthy a.value with _ | _ <;>
                simp [runAssertion, fatalConfigError, knownAssertionTypes, h1, h2, h3, h4, h5, hv]
            · by_cases h6 : a.type = "llm-rubric"
              · rcases hv : strTruthy a.value with _ | _
                · simp [runAssertion, fatalConfigError, knownAssertionTypes,
                    h1, h2, h3, h4, h5, h6, hv]
                · rcases ho : test.options with _ | opts
                  · simp [runAssertion, matchesLlmRubric, fatalConfigError,
                      knownAssertionTypes, h1, h2, h3, h4, h5, h6, hv, ho]
                  · obtain ⟨r, hr⟩ := matchesLlmRubric_some_ok host (a.value.getD "") output opts
                    simp [runAssertion, fatalConfigError, knownAssertionTypes,
                      h1, h2, h3, h4, h5, h6, hv, ho, hr]
              · simp [runAssertion, fatalConfigError, knownAssertionTypes,
                  h1, h2, h3, h4, h5, h6]
  · intro host e o t h
    simp [matchesSimilarity, h]
  · intro host e o opts h
    have heq : matchesLlmRubric host e o (some opts) =
        .ok { pass := false
              reason := some (jsOrStr (rubricResponse host e o opts).error "No output")
              tokensUsed := some (respTokens (rubricResponse host e o opts)) } := by
      simp only [matchesLlmRubric, h, Bool.true_or, if_pos]
    exact ⟨_, heq, rfl⟩

theorem runAssertion_raises_iff_witness :
    (∃ e, runAssertion trivHost { type := "unknown-kind" } {} "x" = .error e) ∧
    (∃ e, runAssertion trivHost { type := "similar" } {} "x" = .error e) ∧
    (∃ e, runAssertion trivHost { type := "llm-rubric", value := some "r" } {} "x" =
      .error e) ∧
    (matchesSimilarity errHost "e" "a" (mkRat 3 4)).pass = false ∧
    (∃ r, matchesLlmRubric errHost "rubric" "out" (some {}) = .ok r ∧ r.pass = false) := by
  refine ⟨?_, ?_, ?_, ?_, ?_⟩
  · exact (runAssertion_raises_iff.1 trivHost { type := "unknown-kind" } {} "x").mpr (by decide)
  · exact (runAssertion_raises_iff.1 trivHost { type := "similar" } {} "x").mpr (by decide)
  · exact (runAssertion_raises_iff.1 trivHost
      { type := "llm-rubric", value := some "r" } {} "x").mpr (by decide)
  · exact runAssertion_raises_iff.2.1 errHost "e" "a" (mkRat 3 4) (by decide)
  · exact runAssertion_raises_iff.2.2 errHost "rubric" "out" {} (by decide)

/-- C5 counterexample: `SIMILAR_REGEX` is unanchored, so the `similar`
shorthand is recognized in the middle of a string, not only as a prefix —
here an input that does not start with "similar" still parses as a
`similar` assertion instead of the `equals` assertion the claim implies. -/
theorem assertionFromString_not_prefix_counterexample :
    (assertionFromString "not similar: x").type = "similar" ∧
    jsStartsWith "not similar: x" "similar" = false := by
  exact ⟨by decide, by decide⟩

/-- C5 as amended: `assertionFromString` is total, checks the grammar in
the precedence order similar-regex, `fn:`/`eval:`, `grade:`, exact
`is-json`/`contains-json`, else `equals`, and maps the claimed examples as
stated, with threshold defaulting to 0.8 when the captured float is absent
or parses to a falsy value — but the `similar` form is recognized anywhere
in the string (leftmost match, matched text removed, remainder trimmed),
not only as a prefix. -/
theorem assertionFromString_grammar :
    assertionFromString "similar(0.9): foo" =
      { type := "similar", value := some "foo", threshold := some (mkRat 9 10) } ∧
    assertionFromString "fn: x.length > 0" =
      { type := "javascript", value := some " x.length > 0" } ∧
    assertionFromString "grade: be concise" =
      { type := "llm-rubric", value := some " be concise" } ∧
    assertionFromString "is-json" = { type := "is-json" } ∧
    assertionFromString "hello" = { type := "equals", value := some "hello" } ∧
    assertionFromString "similar: foo" =
      { type := "similar", value := some "foo", threshold := some (mkRat 4 5) } ∧
    assertionFromString "fn: similar: x" =
      { type := "similar", value := some "fn:  x", threshold := some (mkRat 4 5) } ∧
    assertionFromString "not similar: x" =
      { type := "similar", value := some "not  x", threshold := some (mkRat 4 5) } := by
  refine ⟨by decide, by decide, by decide, by decide, by decide, by decide, by decide, by decide⟩

/-- Falsy `a` makes `jsOrStr a d` fall through to the default. -/
theorem jsOrStr_of_falsy {a : Option String} (h : strTruthy a = false) (d : String) :
    jsOrStr a d = d := by
  cases a with
  | none => rfl
  | some s =>
    simp only [strTruthy, decide_eq_false_iff_not, Decidable.not_not] at h
    simp [jsOrStr, h]

/-- Truthy `a` makes `jsOrStr a d` return `a`'s value. -/
theorem jsOrStr_of_truthy {s : String} (h : s ≠ "") (d : String) :
    jsOrStr (some s) d = s := by
  simp [jsOrStr, h]

/-- C6: `matchesSimilarity` attaches the field-wise sum of both embedding
calls' token usage to its result regardless of outcome, and whenever at
least one response carries a (truthy) error string it returns a failing
result whose reason is the expected-side error when present, otherwise the
output-side error. -/
theorem matchesSimilarity_tokens_errors :
    (∀ (host : Host) (e o : String) (t : ℚ),
      (matchesSimilarity host e o t).tokensUsed = some
        { total := tuTotal (host.callEmbeddingApi e).tokenUsage +
            tuTotal (host.callEmbeddingApi o).tokenUsage
          prompt := tuPrompt (host.callEmbeddingApi e).tokenUsage +
            tuPrompt (host.callEmbeddingApi o).tokenUsage
          completion := tuCompletion (host.callEmbeddingApi e).tokenUsage +
            tuCompletion (host.callEmbeddingApi o).tokenUsage }) ∧
    (∀ (host : Host) (e o : String) (t : ℚ) (es : String),
      (host.callEmbeddingApi e).error = some es → es ≠ "" →
      (matchesSimilarity host e o t).pass = false ∧
      (matchesSimilarity host e o t).reason = some es) ∧
    (∀ (host : Host) (e o : String) (t : ℚ) (os : String),
      strTruthy (host.callEmbeddingApi e).error = false →
      (host.callEmbeddingApi o).error = some os → os ≠ "" →
      (matchesSimilarity host e o t).pass = false ∧
      (matchesSimilarity host e o t).reason = some os) := by
  refine ⟨?_, ?_, ?_⟩
  · intro host e o t
    rw [matchesSimilarity]
    split
    · rfl
    · dsimp only
      split <;> first | rfl | (split <;> rfl)
  · intro host e o t es he hes
    have ht : strTruthy (some es) = true := by simp [strTruthy, hes]
    rw [matchesSimilarity]
    dsimp only
    simp only [he, ht, Bool.true_or, if_true]
    exact ⟨by trivial, by simp [jsOrStr_of_truthy hes]⟩
  · intro host e o t os hf ho hos
    have ht : strTruthy (some os) = true := by simp [strTruthy, hos]
    rw [matchesSimilarity]
    dsimp only
    simp only [hf, ho, ht, Bool.false_or, if_true]
    refine ⟨by trivial, ?_⟩
    rw [jsOrStr_of_falsy hf, jsOrStr_of_truthy hos]

theorem matchesSimilarity_tokens_errors_witness :
    (matchesSimilarity errHost "e" "a" (mkRat 3 4)).tokensUsed = some ⟨4, 4, 0⟩ ∧
    (matchesSimilarity errHost "e" "a" (mkRat 3 4)).pass = false ∧
    (matchesSimilarity errHost "e" "a" (mkRat 3 4)).reason =
      some "API error: rate limited" ∧
    (matchesSimilarity errHost "a" "e" (mkRat 3 4)).reason =
      some "API error: rate limited" := by
  refine ⟨?_, ?_, ?_, ?_⟩
  · have h := matchesSimilarity_tokens_errors.1 errHost "e" "a" (mkRat 3 4)
    simpa using h
  · exact (matchesSimilarity_tokens_errors.2.1 errHost "e" "a" (mkRat 3 4)
      "API error: rate limited" (by decide) (by decide)).1
  · exact (matchesSimilarity_tokens_errors.2.1 errHost "e" "a" (mkRat 3 4)
      "API error: rate limited" (by decide) (by decide)).2
  · exact (matchesSimilarity_tokens_errors.2.2 errHost "a" "e" (mkRat 3 4)
      "API error: rate limited" (by decide) (by decide) (by decide)).2

/-- C7: with both embeddings present and error-free, `matchesSimilarity`
passes exactly when the cosine similarity is not less than the threshold
(equality passes), and the reason states the numeric similarity and the
threshold in both outcomes; and `runAssertion` dispatches a `similar`
assertion with an unset threshold to the matcher with threshold 0.75.  The
cosine itself is the spec-modelled `cosineSimilarity` (its source,
`src/util.ts`, is not among the sources). -/
theorem similar_pass_iff :
    (∀ (host : Host) (e o : String) (t : ℚ) (ev ov : List ℚ),
      (host.callEmbeddingApi e).error = none →
      (host.callEmbeddingApi o).error = none →
      (host.callEmbeddingApi e).embedding = some ev →
      (host.callEmbeddingApi o).embedding = some ov →
      ((matchesSimilarity host e o t).pass = true ↔ ¬ cosineSimilarity ev ov < t) ∧
      (matchesSimilarity host e o t).reason = some
        (if cosineSimilarity ev ov < t then
          "Similarity " ++ ratToString (cosineSimilarity ev ov) ++
            " is less than threshold " ++ ratToString t
        else
          "Similarity " ++ ratToString (cosineSimilarity ev ov) ++
            " is greater than threshold " ++ ratToString t)) ∧
    (∀ (host : Host) (a : Assertion) (test : AtomicTestCase) (output v : String),
      a.type = "similar" → a.value = some v → v ≠ "" → a.threshold = none →
      runAssertion host a test output = .ok (matchesSimilarity host v output (mkRat 3 4))) := by
  constructor
  · intro host e o t ev ov he ho hev hov
    simp only [matchesSimilarity, he, ho, hev, hov, strTruthy, Bool.or_self,
      Bool.false_eq_true, if_false]
    split
    · next hlt => simp [hlt]
    · next hge => simp [hge]
  · intro host a test output v hty hval hne hthr
    rw [runAssertion]
    simp [hty, hval, hthr, strTruthy, hne, effectiveThreshold]

theorem similar_pass_iff_witness :
    (matchesSimilarity embHost "a" "b" 0).pass = true ∧
    (matchesSimilarity embHost "a" "b" (mkRat 3 4)).reason =
      some "Similarity 0 is less than threshold 3/4" ∧
    runAssertion embHost { type := "similar", value := some "a" } {} "b" =
      .ok (matchesSimilarity embHost "a" "b" (mkRat 3 4)) := by
  refine ⟨?_, ?_, ?_⟩
  · exact ((similar_pass_iff.1 embHost "a" "b" 0 [1, 0] [0, 1]
      (by decide) (by decide) (by decide) (by decide)).1).mpr (by decide)
  · have h := (similar_pass_iff.1 embHost "a" "b" (mkRat 3 4) [1, 0] [0, 1]
      (by decide) (by decide) (by decide) (by decide)).2
    simpa using h
  · exact similar_pass_iff.2 embHost { type := "similar", value := some "a" } {} "b" "a"
      rfl rfl (by decide) rfl

/-- Host whose JavaScript evaluation facility always throws, modelling a
predicate body that raises at run time. -/
def jsThrowHost : Host :=
  { trivHost with jsEval := fun _ _ => .error "x is not defined" }

/-- C8: a `javascript` assertion passes exactly when the predicate applied
to the output evaluates to a truthy result, and an error thrown during
evaluation becomes a failing `GradingResult` whose reason carries the error
message — it is never propagated out of `runAssertion`. -/
theorem javascript_assertion_spec :
    ∀ (host : Host) (a : Assertion) (test : AtomicTestCase) (output : String),
      a.type = "javascript" →
      (∀ b, host.jsEval (jsShowOptStr a.value) output = .ok b →
        runAssertion host a test output = .ok
          { pass := b
            reason := some (if b then "Assertion passed" else "Custom function returned false") }) ∧
      (∀ err, host.jsEval (jsShowOptStr a.value) output = .error err →
        runAssertion host a test output = .ok
          { pass := false, reason := some ("Custom function threw error: " ++ err) }) := by
  intro host a test output hty
  constructor
  · intro b hb
    rw [runAssertion]
    simp [hty, hb]
  · intro err herr
    rw [runAssertion]
    simp [hty, herr]

theorem javascript_assertion_spec_witness :
    runAssertion trivHost { type := "javascript", value := some "false" } {} "out" =
      .ok { pass := false, reason := some "Custom function returned false" } ∧
    runAssertion jsThrowHost { type := "javascript", value := some "x" } {} "out" =
      .ok { pass := false, reason := some "Custom function threw error: x is not defined" } := by
  constructor
  · exact (javascript_assertion_spec trivHost
      { type := "javascript", value := some "false" } {} "out" rfl).1 false rfl
  · exact (javascript_assertion_spec jsThrowHost
      { type := "javascript", value := some "x" } {} "out" rfl).2 "x is not defined" rfl

/-- Appending anything to a nonempty string yields a truthy string. -/
theorem strTruthy_append {p : String} (hp : 0 < p.length) (s : String) :
    strTruthy (some (p ++ s)) = true := by
  simp only [strTruthy, decide_eq_true_eq]
  intro e
  have hlen := congrArg String.length e
  rw [String.length_append] at hlen
  have h0 : String.length "" = 0 := rfl
  omega

/-- Reason strings of the similarity comparison are truthy: they start with
the literal "Similarity ". -/
theorem simReason_truthy (x m y : String) :
    strTruthy (some ("Similarity " ++ x ++ m ++ y)) = true := by
  have hp : 0 < (("Similarity " ++ x) ++ m).length := by
    rw [String.length_append, String.length_append]
    have h11 : String.length "Similarity " = 11 := rfl
    omega
  exact strTruthy_append hp y

/-- Fallback through `jsOrStr` preserves nonemptiness of the default. -/
theorem jsOrStr_ne_empty (a : Option String) {d : String} (hd : d ≠ "") :
    jsOrStr a d ≠ "" := by
  cases a with
  | none => exact hd
  | some s =>
    rw [jsOrStr]
    split
    · exact hd
    · next h => exact h

/-- Reason of every `matchesSimilarity` result is a truthy string. -/
theorem matchesSimilarity_reason_truthy (host : Host) (e o : String) (t : ℚ) :
    strTruthy (matchesSimilarity host e o t).reason = true := by
  rw [matchesSimilarity]
  dsimp only
  split
  · simp only [strTruthy, decide_eq_true_eq]
    exact jsOrStr_ne_empty _ (jsOrStr_ne_empty _ (by decide))
  · split
    · split
      · exact simReason_truthy _ _ _
      · exact simReason_truthy _ _ _
    · rfl

/-- Reason of every graded `runAssertion` result on a non-`llm-rubric`
assertion is a truthy string. -/
theorem runAssertion_reason_truthy (host : Host) (a : Assertion) (test : AtomicTestCase)
    (output : String) (r : GradingResult) (hty : a.type ≠ "llm-rubric")
    (h : runAssertion host a test output = .ok r) : strTruthy r.reason = true := by
  rw [runAssertion] at h
  by_cases h1 : a.type = "equals"
  · rw [if_pos h1] at h
    simp only [Except.ok.injEq] at h
    subst h
    dsimp only
    split
    · rfl
    · exact strTruthy_append (p := "Expected output \"") (by decide) _
  · by_cases h2 : a.type = "is-json"
    · rw [if_neg h1, if_pos h2] at h
      rcases hp : host.jsonParse output with v | err <;> rw [hp] at h <;>
        simp only [Except.ok.injEq] at h <;> subst h
      · exact strTruthy_append (p := "Expected output to be valid JSON, but it isn't.\nError: ")
          (by decide) _
      · rfl
    · by_cases h3 : a.type = "contains-json"
      · rw [if_neg h1, if_neg h2, if_pos h3] at h
        simp only [Except.ok.injEq] at h
        subst h
        dsimp only
        split <;> rfl
      · by_cases h4 : a.type = "javascript"
        · rw [if_neg h1, if_neg h2, if_neg h3, if_pos h4] at h
          rcases hp : host.jsEval (jsShowOptStr a.value) output with err | b <;>
            rw [hp] at h <;> simp only [Except.ok.injEq] at h <;> subst h
          · exact strTruthy_append (p := "Custom function threw error: ") (by decide) _
          · dsimp only
            split <;> rfl
        · by_cases h5 : a.type = "similar"
          · rw [if_neg h1, if_neg h2, if_neg h3, if_neg h4, if_pos h5] at h
            rcases hv : strTruthy a.value with _ | _ <;> rw [hv] at h
            · exact absurd h (by simp)
            · simp only [if_true, Except.ok.injEq] at h
              subst h
              exact matchesSimilarity_reason_truthy host _ output _
          · rw [if_neg h1, if_neg h2, if_neg h3, if_neg h4, if_neg h5, if_neg hty] at h
            exact absurd h (by simp)

/-- Reason of a graded `matchesLlmRubric` result is a truthy string except
in the successful-parse branch, where it is read verbatim from the judge's
parsed JSON object. -/
theorem matchesLlmRubric_reason_cases (host : Host) (e o : String) (opts : GradingConfig)
    (r : GradingResult) (h : matchesLlmRubric host e o (some opts) = .ok r) :
    strTruthy r.reason = true ∨
    ∃ v, host.jsonParse ((rubricResponse host e o opts).output.getD "") = .ok v ∧
      r.reason = jsGetStr (jsGetField v "reason") := by
  rw [matchesLlmRubric] at h
  split at h
  · left
    simp only [Except.ok.injEq] at h
    subst h
    simp only [strTruthy, decide_eq_true_eq]
    exact jsOrStr_ne_empty _ (by decide)
  · split at h
    · next v hparse =>
      right
      simp only [Except.ok.injEq] at h
      subst h
      exact ⟨v, hparse, rfl⟩
    · left
      simp only [Except.ok.injEq] at h
      subst h
      exact strTruthy_append (p := "Output is not valid JSON: ") (by decide) _

/-- Graded results of the assertion loop are either the final
"All assertions passed" verdict or the result of one of the assertions in
the list. -/
theorem runAssertionsGo_ok_cases (eval : Assertion → Except String GradingResult) :
    ∀ (l : List Assertion) (acc : TokenUsage) (r : GradingResult),
      runAssertionsGo eval l acc = .ok r →
      r.reason = some "All assertions passed" ∨ ∃ a ∈ l, eval a = .ok r := by
  intro l
  induction l with
  | nil =>
    intro acc r h
    simp only [runAssertionsGo, Except.ok.injEq] at h
    left
    rw [← h]
  | cons a tl ih =>
    intro acc r h
    rw [runAssertionsGo] at h
    rcases heval : eval a with err | res <;> rw [heval] at h
    · exact absurd h (by simp)
    · dsimp only at h
      by_cases hpass : res.pass = true
      · rw [hpass] at h
        simp only [Bool.not_true, Bool.false_eq_true, if_false] at h
        rcases ih _ r h with hfin | ⟨b, hb, hr⟩
        · exact Or.inl hfin
        · exact Or.inr ⟨b, by simp [hb], hr⟩
      · rw [Bool.not_eq_true] at hpass
        rw [hpass] at h
        simp only [Bool.not_false, if_true, Except.ok.injEq] at h
        subst h
        exact Or.inr ⟨a, by simp, heval⟩

/-- C9 counterexample: the judge provider returns the valid JSON object
`{"pass": true}` with no `reason` field; `matchesLlmRubric` returns the
parsed object with only `tokensUsed` overwritten, so the resulting
`GradingResult` has no populated reason. -/
theorem matchesLlmRubric_reason_counterexample :
    matchesLlmRubric rubricHost "rubric" "out" (some {}) =
      .ok { pass := true, reason := none, tokensUsed := some ⟨7, 5, 2⟩ } := by
  decide

/-- C9 as amended: every `GradingResult` built by `matchesSimilarity`, by
`runAssertion` on non-`llm-rubric` assertions, and by `runAssertions` on
tests without `llm-rubric` assertions has a populated (truthy) reason;
`matchesLlmRubric` populates the reason on all of its own branches, but its
successful-parse branch returns the judge object's `reason` field verbatim,
which may be absent or empty. -/
theorem grading_reason_populated :
    (∀ (host : Host) (e o : String) (t : ℚ),
      strTruthy (matchesSimilarity host e o t).reason = true) ∧
    (∀ (host : Host) (a : Assertion) (test : AtomicTestCase) (output : String)
       (r : GradingResult), a.type ≠ "llm-rubric" →
      runAssertion host a test output = .ok r → strTruthy r.reason = true) ∧
    (∀ (host : Host) (e o : String) (opts : GradingConfig) (r : GradingResult),
      matchesLlmRubric host e o (some opts) = .ok r →
      strTruthy r.reason = true ∨
      ∃ v, host.jsonParse ((rubricResponse host e o opts).output.getD "") = .ok v ∧
        r.reason = jsGetStr (jsGetField v "reason")) ∧
    (∀ (host : Host) (test : AtomicTestCase) (output : String) (r : GradingResult),
      (∀ l, test.assert = some l → ∀ a ∈ l, a.type ≠ "llm-rubric") →
      runAssertions host test output = .ok r → strTruthy r.reason = true) := by
  refine ⟨matchesSimilarity_reason_truthy, runAssertion_reason_truthy,
    matchesLlmRubric_reason_cases, ?_⟩
  intro host test output r hnone h
  rw [runAssertions] at h
  rcases hassert : test.assert with _ | l <;> rw [hassert] at h
  · simp only [Except.ok.injEq] at h
    subst h
    rfl
  · rcases runAssertionsGo_ok_cases _ l _ r h with hfin | ⟨a, ha, hr⟩
    · rw [hfin]
      rfl
    · exact runAssertion_reason_truthy host a test output r (hnone l hassert a ha) hr

theorem grading_reason_populated_witness :
    strTruthy (matchesSimilarity trivHost "x" "y" 0).reason = true ∧
    strTruthy (GradingResult.reason
      { pass := true, reason := some "Assertion passed" }) = true ∧
    strTruthy (GradingResult.reason
      { pass := false, reason := some "Expected output \"b\"" }) = true := by
  refine ⟨?_, ?_, ?_⟩
  · exact grading_reason_populated.1 trivHost "x" "y" 0
  · exact grading_reason_populated.2.1 trivHost { type := "equals", value := some "a" } {} "a"
      { pass := true, reason := some "Assertion passed" } (by decide) (by decide)
  · exact grading_reason_populated.2.2.2 trivHost
      { assert := some [{ type := "equals", value := some "a" },
                        { type := "equals", value := some "b" }] } "a"
      { pass := false, reason := some "Expected output \"b\"" }
      (by intro l hl a ha; simp only [Option.some.injEq] at hl; subst hl
          simp only [List.mem_cons, List.not_mem_nil, or_false] at ha
          rcases ha with ha | ha <;> simp [ha]) (by decide)

/-- C10: a threshold of exactly 0 is indistinguishable from an absent
threshold — `runAssertion` invokes the similarity matcher with 0.75 for a
`similar` assertion whose threshold is 0 exactly as for one whose threshold
is unset, `assertionFromString` yields threshold 0.8 on every
`similar(0):`-prefixed string, and no parsed assertion ever carries a zero
threshold. -/
theorem zero_threshold_indistinguishable :
    (∀ (host : Host) (a : Assertion) (test : AtomicTestCase) (output v : String),
      a.type = "similar" → a.value = some v → v ≠ "" →
      runAssertion host { a with threshold := some 0 } test output =
        .ok (matchesSimilarity host v output (mkRat 3 4)) ∧
      runAssertion host { a with threshold := none } test output =
        .ok (matchesSimilarity host v output (mkRat 3 4))) ∧
    (∀ s : String, (assertionFromString ("similar(0):" ++ s)).threshold =
      some (mkRat 4 5)) ∧
    (∀ s : String, (assertionFromString s).threshold ≠ some 0) := by
  refine ⟨?_, ?_, ?_⟩
  · intro host a test output v hty hval hne
    constructor <;>
      · rw [runAssertion]
        simp [hty, hval, strTruthy, hne, effectiveThreshold]
  · intro s
    rfl
  · intro s
    rw [assertionFromString]
    rcases hfs : findSimilar s.toList with _ | ⟨start, len, g⟩
    · dsimp only
      split
      · simp
      · split
        · simp
        · split
          · simp
          · split <;> simp
    · rcases g with _ | ds
      · dsimp only
        intro hcontra
        simp only [Option.some.injEq] at hcontra
        exact absurd hcontra (by decide)
      · dsimp only
        intro hcontra
        simp only [Option.some.injEq] at hcontra
        by_cases hz : parseDecimal ds = 0
        · rw [if_pos hz] at hcontra
          exact absurd hcontra (by decide)
        · rw [if_neg hz] at hcontra
          exact hz hcontra

theorem zero_threshold_indistinguishable_witness :
    runAssertion embHost { type := "similar", value := some "a", threshold := some 0 } {} "b" =
      .ok (matchesSimilarity embHost "a" "b" (mkRat 3 4)) ∧
    (assertionFromString ("similar(0):" ++ " x")).threshold = some (mkRat 4 5) ∧
    (assertionFromString "hello").threshold ≠ some 0 := by
  refine ⟨?_, ?_, ?_⟩
  · exact (zero_threshold_indistinguishable.1 embHost
      { type := "similar", value := some "a", threshold := some 0 } {} "b" "a"
      rfl rfl (by decide)).1
  · exact zero_threshold_indistinguishable.2.1 " x"
  · exact zero_threshold_indistinguishable.2.2 "hello"
